import Mathlib

/-!
Shallow embedding of the Yandex Market parser (src/main.py) and proofs about
the claims of its specification.

The program fetches one search-result page over HTTP, locates the item cards
(article tags with data-auto="searchOrganic"), and per card extracts a title,
a price and a list of characteristics, first from embedded JSON payloads and
then by markup fallbacks.  We embed the per-card pipeline, the page loop and
the HTTP endpoint; the network transport, the JSON decoder and the HTML
parser are the external collaborators and enter as oracles (a fetch function,
pre-parsed JSON blocks, pre-extracted tag texts).
-/

set_option autoImplicit false

namespace YMarket

/-! ## JSON values (the result of json.loads) -/

/-- Generic JSON value as produced by json.loads.  Numbers are embedded as
integers (the payload fields the program reads are integral).  Objects are
association lists in document order, matching dict insertion order. -/
inductive JValue where
  | null
  | bool (b : Bool)
  | int (n : Int)
  | str (s : String)
  | arr (elems : List JValue)
  | obj (fields : List (String × JValue))

/-- Python truthiness of a JSON value (bool(v)). -/
def truthy : JValue → Bool
  | .null => false
  | .bool b => b
  | .int n => n != 0
  | .str s => s != ""
  | .arr xs => !xs.isEmpty
  | .obj fs => !fs.isEmpty

/-- Truthiness of an optional JSON value (None is falsy). -/
def truthyO : Option JValue → Bool
  | none => false
  | some v => truthy v

/-- Truthiness of an optional Python string (None and the empty string are falsy). -/
def truthyS : Option String → Bool
  | none => false
  | some s => s != ""

/-- Python dict membership test (k in d) on a parsed JSON value. -/
def jmem (v : JValue) (k : String) : Bool :=
  match v with
  | .obj fs => fs.any (fun p => p.1 == k)
  | _ => false

/-- Python dict lookup (d.get(k) / d[k]) on a parsed JSON value.  json.loads
keeps the last of duplicate keys, hence the last binding is returned; dicts
built by json.loads never carry duplicate keys, so lookup strategies agree. -/
def jget (v : JValue) (k : String) : Option JValue :=
  match v with
  | .obj fs => ((fs.filter (fun p => p.1 == k)).getLast?).map Prod.snd
  | _ => none

/-- Python iteration (for x in v): lists yield elements, dicts yield keys,
strings yield one-character strings, anything else raises TypeError. -/
def jiter : JValue → Except String (List JValue)
  | .arr xs => .ok xs
  | .obj fs => .ok (fs.map (fun p => JValue.str p.1))
  | .str s => .ok (s.data.map (fun c => JValue.str (String.singleton c)))
  | _ => .error "TypeError: object is not iterable"

/-- A single quote character, used by the Python repr of strings. -/
def squote : String := String.singleton (Char.ofNat 39)

mutual

/-- Python repr of a JSON value (what str() gives on non-string values). -/
def pyRepr : JValue → String
  | .null => "None"
  | .bool true => "True"
  | .bool false => "False"
  | .int n => toString n
  | .str s => squote ++ s ++ squote
  | .arr xs => "[" ++ pyReprList xs ++ "]"
  | .obj fs => "\x7b" ++ pyReprFields fs ++ "\x7d"

/-- Comma-separated reprs of the elements of a list. -/
def pyReprList : List JValue → String
  | [] => ""
  | [x] => pyRepr x
  | x :: y :: rest => pyRepr x ++ ", " ++ pyReprList (y :: rest)

/-- Comma-separated reprs of the entries of a dict. -/
def pyReprFields : List (String × JValue) → String
  | [] => ""
  | [(k, v)] => squote ++ k ++ squote ++ ": " ++ pyRepr v
  | (k, v) :: q :: rest => squote ++ k ++ squote ++ ": " ++ pyRepr v ++ ", " ++ pyReprFields (q :: rest)

end

/-- Python str() of a JSON value (used by the f-string for the price and by
str(spec.get(..)) for characteristic values). -/
def pyStr : JValue → String
  | .str s => s
  | v => pyRepr v

/-! ## Python string helpers -/

/-- Python str.isspace characters (the set stripped by str.strip and matched
by the regex class backslash-s). -/
def pyIsSpace (c : Char) : Bool :=
  c == ' ' || c == '\t' || c == '\n' || c == '\r' ||
  c.toNat == 11 || c.toNat == 12 ||
  (28 ≤ c.toNat && c.toNat ≤ 31) ||
  c.toNat == 133 || c.toNat == 160 || c.toNat == 0x1680 ||
  (0x2000 ≤ c.toNat && c.toNat ≤ 0x200A) ||
  c.toNat == 0x2028 || c.toNat == 0x2029 || c.toNat == 0x202F ||
  c.toNat == 0x205F || c.toNat == 0x3000

/-- Decimal digit, for the regex class backslash-d (the documents carry ASCII
digits; other Unicode decimal digits are not modelled). -/
def pyIsDigit (c : Char) : Bool := c.isDigit

/-- Python str.strip(): drop leading and trailing whitespace. -/
def pyStrip (s : String) : String :=
  String.mk (((s.data.dropWhile pyIsSpace).reverse.dropWhile pyIsSpace).reverse)

/-- Does the price regex (digits, then optional whitespace, then the ruble
sign) match at the head of this character list?  The three character classes
are pairwise disjoint, so greedy matching needs no backtracking. -/
def matchPriceAt (cs : List Char) : Bool :=
  match cs with
  | [] => false
  | c :: _ =>
    if pyIsDigit c then
      match (cs.dropWhile pyIsDigit).dropWhile pyIsSpace with
      | r :: _ => r == '₽'
      | [] => false
    else false

/-- re.search of the price pattern over a string: does it match at some
position? -/
def hasPriceMatch (s : String) : Bool :=
  s.data.tails.any matchPriceAt

/-! ## Data model (the pydantic models) -/

/-- Characteristic pydantic model. -/
structure Characteristic where
  name : String
  value : String
deriving DecidableEq, Repr

/-- Product pydantic model. -/
structure Product where
  title : String
  price : Option String
  characteristics : List Characteristic
deriving DecidableEq, Repr

/-- SearchResponse pydantic model. -/
structure SearchResponse where
  query : String
  products : List Product
deriving DecidableEq, Repr

/-! ## The card, as seen through BeautifulSoup

An item card (article with data-auto="searchOrganic") is abstracted to the
pieces of it that the program reads.  HTML parsing itself is the external
collaborator. -/

/-- Content of one candidate JSON block inside a card: block.string is falsy
(None or empty), or json.loads raises JSONDecodeError, or it parses. -/
inductive JsonBlock where
  | blank
  | malformed
  | parsed (data : JValue)

/-- One item card.  Tag texts are stored as the strings get_text(strip=True)
returns; stringNodes are the raw NavigableString nodes in document order. -/
structure Card where
  noframesBlocks : List JsonBlock
  scriptBlocks : List JsonBlock
  nameSpan : Option String
  stringNodes : List String
  dsTextSpans : List String

/-- The JSON blocks the card loop iterates: the noframes blocks with
data-apiary="patch", and only when none were found, the script blocks with
type="application/json". -/
def blocksOf (c : Card) : List JsonBlock :=
  if c.noframesBlocks.isEmpty then c.scriptBlocks else c.noframesBlocks

/-! ## Structured-payload extraction -/

/-- Mutable state of the per-card extraction: the title variable (a raw JSON
value until validated), the price string and the accumulated specs. -/
structure ExtractState where
  title : Option JValue
  price : Option String
  specs : List Characteristic

/-- The loop over value[specs]: for each element that is a dict with a name
field, append Characteristic(name=spec[name], value=str(spec.get(value,
ε))).  pydantic validation rejects a non-string name (the exception
escapes to the card boundary). -/
def specsFromList : List JValue → Except String (List Characteristic)
  | [] => .ok []
  | spec :: rest =>
    match spec with
    | .obj _ =>
      match jget spec "name" with
      | some (.str n) => do
        let tail ← specsFromList rest
        .ok (⟨n, pyStr ((jget spec "value").getD (.str ""))⟩ :: tail)
      | some _ => .error "ValidationError: name is not a string"
      | none => specsFromList rest
    | _ => specsFromList rest

/-- Handling of one (key, value) pair inside a widget, the body of the
isinstance(value, dict) branch: capture the title when none truthy yet,
overwrite the price from a truthy price.value (value[price].get raises
AttributeError when value[price] is not a dict), and append all specs. -/
def processEntry (st : ExtractState) (value : JValue) : Except String ExtractState :=
  match value with
  | .obj _ => do
    let st1 : ExtractState :=
      if jmem value "title" && !(truthyO st.title) then
        { st with title := jget value "title" }
      else st
    let st2 : ExtractState ←
      if jmem value "price" then
        match jget value "price" with
        | some p =>
          match p with
          | .obj _ =>
            match jget p "value" with
            | some pv =>
              if truthy pv then
                let newPrice := pyStr pv ++ " " ++ pyStr ((jget p "currency").getD (.str "RUR"))
                .ok { st1 with price := some newPrice }
              else .ok st1
            | none => .ok st1
          | _ => .error "AttributeError: price value has no attribute get"
        | none => .ok st1
      else .ok st1
    if jmem value "specs" then
      match jget value "specs" with
      | some sv => do
        let elems ← jiter sv
        let newSpecs ← specsFromList elems
        .ok { st2 with specs := st2.specs ++ newSpecs }
      | none => .ok st2
    else .ok st2
  | _ => .ok st

/-- The loop for key, value in widget_data.items(); a non-dict widget value
raises AttributeError to the card boundary. -/
def processWidget (st : ExtractState) (widgetData : JValue) : Except String ExtractState :=
  match widgetData with
  | .obj fs => fs.foldlM (fun s p => processEntry s p.2) st
  | _ => .error "AttributeError: widget data has no attribute items"

/-- The body run after json.loads succeeded on one block: data.get(widgets,
empty dict) (AttributeError when data is not a dict), then the loop over the
widgets (AttributeError when the widgets value is not a dict).
found_data.update(data) has no observable effect and is omitted. -/
def processData (st : ExtractState) (data : JValue) : Except String ExtractState :=
  match data with
  | .obj _ =>
    match (jget data "widgets").getD (.obj []) with
    | .obj wfs => wfs.foldlM (fun s p => processWidget s p.2) st
    | _ => .error "AttributeError: widgets value has no attribute items"
  | _ => .error "AttributeError: data has no attribute get"

/-- One iteration of the block loop: a falsy block.string is skipped, a
JSONDecodeError is caught and skipped, a parsed block is processed. -/
def processBlock (st : ExtractState) (b : JsonBlock) : Except String ExtractState :=
  match b with
  | .blank => .ok st
  | .malformed => .ok st
  | .parsed data => processData st data

/-- Structured-payload extraction over the JSON blocks of a card, starting
from title=None, price=None, specs=[]. -/
def structuredExtract (blocks : List JsonBlock) : Except String ExtractState :=
  blocks.foldlM processBlock ⟨none, none, []⟩

/-! ## Markup fallbacks -/

/-- Price fallback: card.find(string=re.compile(...)) returns the first
string node the pattern matches somewhere in, and the price is that whole
node text stripped. -/
def priceFallback (nodes : List String) : Option String :=
  (nodes.find? hasPriceMatch).map pyStrip

/-- Python colon-in-text test (the character c in txt). -/
def pyHasChar (s : String) (c : Char) : Bool := s.data.contains c

/-- Python txt.replace(c, empty string) for a one-character pattern: every
occurrence of the character is removed. -/
def pyRemoveChar (s : String) (c : Char) : String :=
  String.mk (s.data.filter (fun x => x != c))

/-- The adjacent-pair walk over the ds-text spans: span i is a label when its
text contains a colon and is shorter than 50 characters; the value is the
text of span i+1, kept when truthy.  The label drops every colon and is then
stripped. -/
def pairSpecs : List String → List Characteristic
  | t :: v :: rest =>
    let tail := pairSpecs (v :: rest)
    if pyHasChar t ':' && t.length < 50 && v != "" then
      ⟨pyStrip (pyRemoveChar t ':'), v⟩ :: tail
    else tail
  | _ => []

/-- One step of building the dedup dict: an existing key keeps its position
and takes the new value, a new key is appended. -/
def insertUpd (acc : List Characteristic) (c : Characteristic) : List Characteristic :=
  if acc.any (fun a => a.name == c.name) then
    acc.map (fun a => if a.name == c.name then c else a)
  else acc ++ [c]

/-- The dict comprehension followed by .values(): deduplicate by name with
the last occurrence winning, insertion-ordered. -/
def dedupLastWins (xs : List Characteristic) : List Characteristic :=
  xs.foldl insertUpd []

/-- Characteristics fallback over the ds-text span texts. -/
def specsFallback (spans : List String) : List Characteristic :=
  dedupLastWins (pairSpecs spans)

/-! ## The per-card pipeline and the page loop -/

/-- Title after the markup fallback: kept when truthy, otherwise the first
span with itemprop name (a found tag is always truthy). -/
def finalTitle (st : ExtractState) (c : Card) : Option JValue :=
  if truthyO st.title then st.title
  else
    match c.nameSpan with
    | some s => some (.str s)
    | none => st.title

/-- Price after the markup fallback: kept when truthy, otherwise the first
matching string node, stripped. -/
def finalPrice (st : ExtractState) (c : Card) : Option String :=
  if truthyS st.price then st.price
  else
    match priceFallback c.stringNodes with
    | some s => some s
    | none => st.price

/-- Characteristics after the markup fallback, which runs only when the
structured pass found none. -/
def finalSpecs (st : ExtractState) (c : Card) : List Characteristic :=
  if st.specs.isEmpty then specsFallback c.dsTextSpans else st.specs

/-- The tail of the card body: the three fallbacks and the final if title:
guard.  pydantic validation of Product(title=...) rejects a non-string
title.  Returns some product, or none when the title stayed falsy. -/
def finishCard (st : ExtractState) (c : Card) : Except String (Option Product) :=
  if truthyO (finalTitle st c) then
    match finalTitle st c with
    | some (.str s) => .ok (some ⟨s, finalPrice st c, finalSpecs st c⟩)
    | _ => .error "ValidationError: title is not a string"
  else .ok none

/-- Body of the per-card try block: structured extraction over the JSON
blocks, then the fallbacks and the final guard. -/
def extractCard (c : Card) : Except String (Option Product) := do
  let st ← structuredExtract (blocksOf c)
  finishCard st c

/-- The loop for card in cards[:limit]: a raised exception is caught at the
card boundary, printed as a diagnostic and the card is skipped; a falsy
title appends nothing.  Returns the products and the printed diagnostics, in
order. -/
def processCards : List Card → List Product × List String
  | [] => ([], [])
  | c :: rest =>
    match extractCard c, processCards rest with
    | .error e, (ps, ls) => (ps, ("Ошибка обработки карточки: " ++ e) :: ls)
    | .ok none, r => r
    | .ok (some p), (ps, ls) => (p :: ps, ls)

/-- Python list slicing xs[:n] for a possibly negative n. -/
def pySliceTo {α : Type} (xs : List α) (n : Int) : List α :=
  if 0 ≤ n then xs.take n.toNat else xs.take (xs.length - n.natAbs)

/-! ## Transport and top level -/

/-- The fixed request headers. -/
def HEADERS : List (String × String) :=
  [("User-Agent", "Mozilla/5.0 (Windows NT 10.0; Win64; x64) AppleWebKit/537.36 (KHTML, like Gecko) Chrome/144.0.0.0 Safari/537.36"),
   ("Accept-Language", "ru-RU,ru;q=0.9,en-US;q=0.8,en;q=0.7"),
   ("Referer", "https://market.yandex.ru/")]

/-- Hex digit (uppercase), for percent-encoding. -/
def hexDigit (n : Nat) : Char :=
  if n < 10 then Char.ofNat (48 + n) else Char.ofNat (55 + n)

/-- Bytes urllib.parse.quote leaves unescaped: ASCII letters, digits,
underscore, dot, hyphen, tilde, and the default safe character slash. -/
def quoteSafeByte (b : Nat) : Bool :=
  (65 ≤ b && b ≤ 90) || (97 ≤ b && b ≤ 122) || (48 ≤ b && b ≤ 57) ||
  b == 95 || b == 46 || b == 45 || b == 126 || b == 47

/-- urllib.parse.quote: percent-encode the UTF-8 bytes, keeping safe bytes. -/
def pyQuote (s : String) : String :=
  String.mk ((s.toUTF8.toList.map (fun b => b.toNat)).flatMap
    (fun b => if quoteSafeByte b then [Char.ofNat b] else ['%', hexDigit (b / 16), hexDigit (b % 16)]))

/-- The single URL the function requests; it carries no page parameter. -/
def searchUrl (query : String) : String :=
  "https://market.yandex.ru/search?text=" ++ pyQuote query

/-- A transport oracle: requests.get + raise_for_status + BeautifulSoup +
find_all of the item cards, as one external collaborator.  An error value is
a requests.RequestException (timeout, connection failure, non-success
status); success yields the item cards of the document in order. -/
def Transport : Type := String → List (String × String) → Except String (List Card)

/-- parse_yandex_market: one fetch of the fixed search URL; a transport
failure prints a diagnostic and returns the empty list; otherwise the card
loop runs over cards[:limit].  Returns the products together with the
printed diagnostics. -/
def parse_yandex_market (fetch : Transport) (query : String) (limit : Int) :
    List Product × List String :=
  match fetch (searchUrl query) HEADERS with
  | .error e => ([], ["Ошибка запроса: " ++ e])
  | .ok cards => processCards (pySliceTo cards limit)

/-- The /search endpoint: calls the parser with the given q and limit (no
validation of either) and wraps the products. -/
def search_products (fetch : Transport) (q : String) (limit : Int) : SearchResponse :=
  ⟨q, (parse_yandex_market fetch q limit).1⟩

/-! ## Concrete documents and transports used in scenarios -/

/-- A card carrying only a markup title, used in concrete scenarios. -/
def cardT (t : String) : Card := ⟨[], [], some t, [], []⟩

/-- A transport whose every response is one card titled A. -/
def oneCardTransport : Transport := fun _ _ => .ok [cardT "A"]

/-- A transport that answers the query-q search URL with one card titled A
and any other request with five further cards. -/
def richTransport : Transport := fun u _ =>
  if u = searchUrl "q" then .ok [cardT "A"]
  else .ok [cardT "B", cardT "C", cardT "D", cardT "E", cardT "F"]

/-- A card whose only JSON block parses to a non-dict document: data.get
raises AttributeError at the card boundary. -/
def badCard : Card := ⟨[JsonBlock.parsed (.arr [])], [], some "T", [], []⟩

/-- A transport that always times out. -/
def failTransport : Transport := fun _ _ => .error "timeout"

/-- A transport answering every request with three cards titled A, B, C. -/
def threeCardTransport : Transport := fun _ _ => .ok [cardT "A", cardT "B", cardT "C"]

/-- An entry whose only field is a price with the given integral value. -/
def priceEntry (v : Int) : JValue := .obj [("price", .obj [("value", .int v)])]

/-- A payload with one widget holding two price entries, 100 then 200. -/
def twoPriceData : JValue :=
  .obj [("widgets", .obj [("w", .obj [("e1", priceEntry 100), ("e2", priceEntry 200)])])]

/-- The card carrying that payload, with a markup title. -/
def twoPriceCard : Card := ⟨[.parsed twoPriceData], [], some "T", [], []⟩

/-- A card whose specs come from the markup fallback with a repeated label. -/
def fbCard : Card := ⟨[], [], some "T", [], ["a:", "x", "a:", "y"]⟩

/-- The card whose only price evidence is a text node with words around the
matched amount. -/
def wholeNodeCard : Card := ⟨[], [], some "T", ["Цена от 1999 ₽ за штуку"], []⟩

/-! ## Theorems -/

/-- The per-card loop distributes over concatenation of card lists: both the
products and the diagnostics of the two halves are concatenated. -/
theorem processCards_append (xs ys : List Card) :
    processCards (xs ++ ys) =
      ((processCards xs).1 ++ (processCards ys).1,
       (processCards xs).2 ++ (processCards ys).2) := by
  induction xs with
  | nil => simp [processCards]
  | cons c rest ih =>
    cases h : extractCard c with
    | error e => simp [processCards, h, ih]
    | ok o => cases o <;> simp [processCards, h, ih]

/-- C1: each card is processed independently of the products collected from
earlier cards; no title set is consulted, so duplicate titles all appear. -/
theorem C1_amended (xs ys : List Card) :
    (processCards (xs ++ ys)).1 = (processCards xs).1 ++ (processCards ys).1 ∧
    (processCards (xs ++ ys)).2 = (processCards xs).2 ++ (processCards ys).2 := by
  rw [processCards_append]
  exact ⟨rfl, rfl⟩

/-- C1 counterexample: three cards titled A, B, A yield three products with
a repeated title, so titles are not unique in the result of a query. -/
theorem C1_counterexample :
    ((parse_yandex_market (fun _ _ => .ok [cardT "A", cardT "B", cardT "A"]) "q" 5).1.map
        Product.title) = ["A", "B", "A"] ∧
    ¬ ((parse_yandex_market (fun _ _ => .ok [cardT "A", cardT "B", cardT "A"]) "q" 5).1.map
        Product.title).Nodup := by
  constructor
  · rfl
  · decide

/-- C2: the pipeline issues a single fetch, of the fixed search URL: the
outcome is fully determined by the response for that one request, no matter
how few products it yields. -/
theorem C2_amended (q : String) (lim : Int) (f g : Transport)
    (h : f (searchUrl q) HEADERS = g (searchUrl q) HEADERS) :
    parse_yandex_market f q lim = parse_yandex_market g q lim := by
  unfold parse_yandex_market
  rw [h]

/-- C2 counterexample: the first page yields one product, fewer than the
limit of five, yet the result is identical whatever every other request
would return: no next page is ever fetched. -/
theorem C2_counterexample :
    (parse_yandex_market oneCardTransport "q" 5).1.length = 1 ∧ (1 : Nat) < 5 ∧
    parse_yandex_market oneCardTransport "q" 5 = parse_yandex_market richTransport "q" 5 := by
  refine ⟨rfl, by decide, ?_⟩
  unfold parse_yandex_market oneCardTransport richTransport
  simp

/-- C2 witness for the amended theorem at a concrete transport. -/
theorem C2_witness :
    parse_yandex_market oneCardTransport "q" 5 = parse_yandex_market richTransport "q" 5 :=
  C2_amended "q" 5 oneCardTransport richTransport (by simp [oneCardTransport, richTransport])

/-- C5: a card whose processing raises is dropped with a diagnostic while
every sibling card contributes exactly as it would without it, and the page
result is still an ordinary pair of products and diagnostics. -/
theorem C5_card_errors_isolated (xs ys : List Card) (c : Card) (e : String)
    (h : extractCard c = .error e) :
    (processCards (xs ++ c :: ys)).1 = (processCards (xs ++ ys)).1 ∧
    (processCards (xs ++ c :: ys)).2 =
      (processCards xs).2 ++ ("Ошибка обработки карточки: " ++ e) :: (processCards ys).2 := by
  have hc1 : (processCards (c :: ys)).1 = (processCards ys).1 := by
    simp [processCards, h]
  have hc2 : (processCards (c :: ys)).2 =
      ("Ошибка обработки карточки: " ++ e) :: (processCards ys).2 := by
    simp [processCards, h]
  have h1 := processCards_append xs (c :: ys)
  have h2 := processCards_append xs ys
  rw [h1, h2, hc1, hc2]
  exact ⟨rfl, rfl⟩

/-- C5 witness: the bad card is skipped with a diagnostic and the sibling
card still yields its product. -/
theorem C5_witness :
    (processCards [badCard, cardT "B"]).1 = (processCards [cardT "B"]).1 ∧
    (processCards [badCard, cardT "B"]).2 =
      "Ошибка обработки карточки: AttributeError: data has no attribute get" ::
        (processCards [cardT "B"]).2 :=
  C5_card_errors_isolated [] [cardT "B"] badCard "AttributeError: data has no attribute get" rfl

/-- C6: a transport failure on the (single) page fetch yields the diagnostic
and the products accumulated so far, which are none, as a normal result. -/
theorem C6_transport_failure (q : String) (lim : Int) (f : Transport) (e : String)
    (h : f (searchUrl q) HEADERS = .error e) :
    parse_yandex_market f q lim = ([], ["Ошибка запроса: " ++ e]) := by
  unfold parse_yandex_market
  rw [h]

/-- C6 witness at a concrete failing transport. -/
theorem C6_witness :
    parse_yandex_market failTransport "q" 5 = ([], ["Ошибка запроса: timeout"]) :=
  C6_transport_failure "q" 5 failTransport "timeout" rfl

/-- C7 counterexample: a non-positive limit is not rejected; the pipeline
runs and answers normally: limit -1 returns the products of all but the last
card, limit 0 returns an empty list, never an error. -/
theorem C7_counterexample :
    search_products threeCardTransport "q" (-1) =
      ⟨"q", [⟨"A", none, []⟩, ⟨"B", none, []⟩]⟩ ∧
    search_products threeCardTransport "q" 0 = ⟨"q", []⟩ := by
  exact ⟨rfl, rfl⟩

/-- C7: the boundary validates nothing and never produces an error: every
query yields a SearchResponse; a negative limit slices off the trailing
cards (Python slice semantics) and limit 0 yields no products. -/
theorem C7_amended (q : String) (f : Transport) (lim : Int) (cards : List Card)
    (h : f (searchUrl q) HEADERS = .ok cards) (hneg : lim < 0) :
    (search_products f q lim).query = q ∧
    (search_products f q lim).products =
      (processCards (cards.take (cards.length - lim.natAbs))).1 ∧
    (search_products f q 0).products = [] := by
  unfold search_products parse_yandex_market pySliceTo
  rw [h]
  dsimp only
  refine ⟨rfl, ?_, ?_⟩
  · rw [if_neg (by omega : ¬ (0 : Int) ≤ lim)]
  · simp [processCards]

/-- C7 witness at a concrete transport and the limit -1. -/
theorem C7_witness :
    (search_products threeCardTransport "q" (-1)).query = "q" ∧
    (search_products threeCardTransport "q" (-1)).products =
      (processCards ([cardT "A", cardT "B", cardT "C"].take
        ([cardT "A", cardT "B", cardT "C"].length - (-1 : Int).natAbs))).1 ∧
    (search_products threeCardTransport "q" 0).products = [] :=
  C7_amended "q" threeCardTransport (-1) [cardT "A", cardT "B", cardT "C"] rfl (by decide)

/-- C3 counterexample: after the first entry the captured price is 100 RUR,
yet the later price entry changes it: the card yields 200 RUR. -/
theorem C3_counterexample :
    extractCard twoPriceCard = .ok (some ⟨"T", some "200 RUR", []⟩) ∧
    some "200 RUR" ≠ some "100 RUR" := by
  exact ⟨rfl, by decide⟩

/-- C3: price capture is last-truthy-wins: an entry carrying a price with a
truthy value overwrites whatever price was captured before it. -/
theorem C3_amended (st : ExtractState) (vfs pfs : List (String × JValue)) (pv : JValue)
    (htitle : jmem (.obj vfs) "title" = false)
    (hspecs : jmem (.obj vfs) "specs" = false)
    (hmem : jmem (.obj vfs) "price" = true)
    (hget : jget (.obj vfs) "price" = some (.obj pfs))
    (hval : jget (.obj pfs) "value" = some pv)
    (htr : truthy pv = true) :
    processEntry st (.obj vfs) =
      .ok ⟨st.title, some (pyStr pv ++ " " ++ pyStr ((jget (.obj pfs) "currency").getD (.str "RUR"))), st.specs⟩ := by
  simp [processEntry, htitle, hspecs, hmem, hget, hval, htr, Bind.bind, Except.bind]

/-- C3 witness: a previously captured 100 RUR is overwritten by a later
truthy price entry of 200. -/
theorem C3_witness :
    processEntry ⟨none, some "100 RUR", []⟩ (.obj [("price", .obj [("value", .int 200)])]) =
      .ok ⟨none, some "200 RUR", []⟩ :=
  C3_amended ⟨none, some "100 RUR", []⟩ [("price", .obj [("value", .int 200)])]
    [("value", .int 200)] (.int 200) rfl rfl rfl rfl rfl rfl

/-- C10: a price entry whose value is missing or falsy leaves the captured
price exactly as it was (unset stays unset, a previous capture is kept). -/
theorem C10_falsy_price_value (st : ExtractState) (vfs pfs : List (String × JValue))
    (htitle : jmem (.obj vfs) "title" = false)
    (hspecs : jmem (.obj vfs) "specs" = false)
    (hmem : jmem (.obj vfs) "price" = true)
    (hget : jget (.obj vfs) "price" = some (.obj pfs))
    (hval : jget (.obj pfs) "value" = none ∨
      ∃ pv, jget (.obj pfs) "value" = some pv ∧ truthy pv = false) :
    processEntry st (.obj vfs) = .ok st := by
  rcases hval with hnone | ⟨pv, hv, htr⟩
  · simp [processEntry, htitle, hspecs, hmem, hget, hnone, Bind.bind, Except.bind]
  · simp [processEntry, htitle, hspecs, hmem, hget, hv, htr, Bind.bind, Except.bind]

/-- C10 witness: a price entry with the falsy value 0 does not disturb a
previously captured price. -/
theorem C10_witness :
    processEntry ⟨none, some "100 RUR", []⟩ (.obj [("price", .obj [("value", .int 0)])]) =
      .ok ⟨none, some "100 RUR", []⟩ :=
  C10_falsy_price_value ⟨none, some "100 RUR", []⟩ [("price", .obj [("value", .int 0)])]
    [("value", .int 0)] rfl rfl rfl rfl (.inr ⟨.int 0, rfl, rfl⟩)

/-- Inserting into the dedup dict preserves distinctness of the names. -/
theorem insertUpd_nodup (acc : List Characteristic) (c : Characteristic)
    (h : (acc.map Characteristic.name).Nodup) :
    ((insertUpd acc c).map Characteristic.name).Nodup := by
  unfold insertUpd
  cases hp : acc.any (fun a => a.name == c.name) with
  | true =>
    simp only [hp, if_true]
    rw [List.map_map]
    have he : acc.map (Characteristic.name ∘ fun a => if a.name == c.name then c else a) =
        acc.map Characteristic.name := by
      apply List.map_congr_left
      intro a _
      by_cases hb : a.name = c.name
      · simp [Function.comp, hb]
      · simp [Function.comp, hb]
    rw [he]
    exact h
  | false =>
    simp only [hp, Bool.false_eq_true, if_false]
    rw [List.map_append]
    refine List.nodup_append.mpr ⟨h, List.nodup_singleton _, ?_⟩
    intro x hx hx1
    simp only [List.map_cons, List.map_nil, List.mem_singleton] at hx1
    subst hx1
    obtain ⟨a, ha, hfa⟩ := List.mem_map.mp hx
    have hall := List.any_eq_false.mp hp
    exact (hall a ha) (by simp [hfa])

/-- The fold of insertion-updates preserves distinctness of names. -/
theorem foldl_insertUpd_nodup (ts : List Characteristic) :
    ∀ acc : List Characteristic, (acc.map Characteristic.name).Nodup →
      (((ts.foldl insertUpd acc)).map Characteristic.name).Nodup := by
  induction ts with
  | nil => intro acc h; exact h
  | cons c ts ih =>
    intro acc h
    rw [List.foldl_cons]
    exact ih _ (insertUpd_nodup acc c h)

/-- The dict-comprehension dedup yields pairwise distinct names. -/
theorem dedupLastWins_nodup (xs : List Characteristic) :
    ((dedupLastWins xs).map Characteristic.name).Nodup :=
  foldl_insertUpd_nodup xs [] (by simp)

/-- C4 counterexample: a payload listing the spec name A twice yields a
product whose characteristics carry the name A twice. -/
theorem C4_counterexample :
    extractCard ⟨[.parsed (.obj [("widgets", .obj [("w", .obj [("e", .obj
        [("title", .str "T"),
         ("specs", .arr [.obj [("name", .str "A"), ("value", .int 1)],
                         .obj [("name", .str "A"), ("value", .int 2)]])])])])])],
      [], none, [], []⟩ =
      .ok (some ⟨"T", none, [⟨"A", "1"⟩, ⟨"A", "2"⟩]⟩) ∧
    ¬ (([⟨"A", "1"⟩, ⟨"A", "2"⟩] : List Characteristic).map Characteristic.name).Nodup := by
  exact ⟨rfl, by decide⟩

/-- C4: only products whose characteristics come from the markup fallback
(the structured pass found none) are guaranteed pairwise distinct names. -/
theorem C4_amended (c : Card) (st : ExtractState) (p : Product)
    (hst : structuredExtract (blocksOf c) = .ok st)
    (hspec : st.specs = [])
    (hp : extractCard c = .ok (some p)) :
    (p.characteristics.map Characteristic.name).Nodup := by
  unfold extractCard at hp
  rw [hst] at hp
  simp only [Bind.bind, Except.bind] at hp
  unfold finishCard at hp
  cases htr : truthyO (finalTitle st c) with
  | false =>
    rw [htr] at hp
    simp at hp
  | true =>
    rw [htr] at hp
    simp only [if_true] at hp
    cases hT : finalTitle st c with
    | none =>
      rw [hT] at hp
      simp at hp
    | some v =>
      cases v with
      | str s =>
        rw [hT] at hp
        simp only [Except.ok.injEq, Option.some.injEq] at hp
        subst hp
        show ((finalSpecs st c).map Characteristic.name).Nodup
        unfold finalSpecs
        rw [hspec]
        simp only [List.isEmpty_nil, if_true]
        exact dedupLastWins_nodup _
      | null => rw [hT] at hp; simp at hp
      | bool b => rw [hT] at hp; simp at hp
      | int n => rw [hT] at hp; simp at hp
      | arr xs => rw [hT] at hp; simp at hp
      | obj fs => rw [hT] at hp; simp at hp

/-- C4 witness: the fallback card yields distinct characteristic names. -/
theorem C4_witness :
    ((Product.characteristics ⟨"T", none, [⟨"a", "y"⟩]⟩).map Characteristic.name).Nodup :=
  C4_amended fbCard ⟨none, none, []⟩ ⟨"T", none, [⟨"a", "y"⟩]⟩ rfl rfl rfl

/-- C9 counterexample: the pattern matches inside the node, yet the price is
the whole node text, not the matched substring 1999 followed by the ruble
sign. -/
theorem C9_counterexample :
    extractCard wholeNodeCard = .ok (some ⟨"T", some "Цена от 1999 ₽ за штуку", []⟩) ∧
    hasPriceMatch "Цена от 1999 ₽ за штуку" = true ∧
    some "Цена от 1999 ₽ за штуку" ≠ some "1999 ₽" := by
  exact ⟨rfl, rfl, by decide⟩

/-- C9: the fallback takes the first string node the pattern matches
somewhere in, and the price is that entire node text stripped of surrounding
whitespace. -/
theorem C9_amended (pre : List String) (t : String) (post : List String)
    (hpre : ∀ u ∈ pre, hasPriceMatch u = false)
    (ht : hasPriceMatch t = true) :
    priceFallback (pre ++ t :: post) = some (pyStrip t) := by
  unfold priceFallback
  have hfind : (pre ++ t :: post).find? hasPriceMatch = some t := by
    rw [List.find?_append]
    have hnone : pre.find? hasPriceMatch = none := by
      rw [List.find?_eq_none]
      intro x hx
      simp [hpre x hx]
    rw [hnone]
    simp [List.find?_cons, ht]
  rw [hfind]
  rfl

/-- C9 witness: a non-matching node is passed over and the first matching
node is returned stripped. -/
theorem C9_witness :
    priceFallback ["без цены", "1999 ₽"] = some (pyStrip "1999 ₽") :=
  C9_amended ["без цены"] "1999 ₽" [] (by decide) (by decide)

/-- Appending the JSON-spec lists appends the extracted characteristic
lists: accumulation is order-preserving and performs no deduplication. -/
theorem specsFromList_append (xs ys : List JValue) (a b : List Characteristic)
    (ha : specsFromList xs = .ok a) (hb : specsFromList ys = .ok b) :
    specsFromList (xs ++ ys) = .ok (a ++ b) := by
  induction xs generalizing a with
  | nil =>
    simp only [specsFromList] at ha
    cases ha
    simpa using hb
  | cons spec rest ih =>
    cases spec with
    | obj fs =>
      cases hj : jget (.obj fs) "name" with
      | none =>
        rw [List.cons_append]
        simp only [specsFromList, hj] at ha ⊢
        exact ih a ha
      | some v =>
        cases v with
        | str n =>
          rw [List.cons_append]
          simp only [specsFromList, hj] at ha ⊢
          cases htail : specsFromList rest with
          | error e =>
            rw [htail] at ha
            simp [Bind.bind, Except.bind] at ha
          | ok tail =>
            rw [htail] at ha
            simp only [Bind.bind, Except.bind, Except.ok.injEq] at ha
            subst ha
            rw [ih tail htail]
            simp [Bind.bind, Except.bind]
        | null =>
          simp only [specsFromList, hj] at ha
          simp at ha
        | bool bb =>
          simp only [specsFromList, hj] at ha
          simp at ha
        | int nn =>
          simp only [specsFromList, hj] at ha
          simp at ha
        | arr aa =>
          simp only [specsFromList, hj] at ha
          simp at ha
        | obj oo =>
          simp only [specsFromList, hj] at ha
          simp at ha
    | null =>
      rw [List.cons_append]
      simp only [specsFromList] at ha ⊢
      exact ih a ha
    | bool bb =>
      rw [List.cons_append]
      simp only [specsFromList] at ha ⊢
      exact ih a ha
    | int nn =>
      rw [List.cons_append]
      simp only [specsFromList] at ha ⊢
      exact ih a ha
    | str ss =>
      rw [List.cons_append]
      simp only [specsFromList] at ha ⊢
      exact ih a ha
    | arr aa =>
      rw [List.cons_append]
      simp only [specsFromList] at ha ⊢
      exact ih a ha

/-- An entry carrying only specs appends the extracted characteristics to
the accumulated ones, leaving title and price untouched. -/
theorem processEntry_specs_append (st : ExtractState) (vfs : List (String × JValue))
    (sv : JValue) (elems : List JValue) (cs : List Characteristic)
    (htitle : jmem (.obj vfs) "title" = false)
    (hprice : jmem (.obj vfs) "price" = false)
    (hmem : jmem (.obj vfs) "specs" = true)
    (hspecs : jget (.obj vfs) "specs" = some sv)
    (hiter : jiter sv = .ok elems)
    (hcs : specsFromList elems = .ok cs) :
    processEntry st (.obj vfs) = .ok ⟨st.title, st.price, st.specs ++ cs⟩ := by
  simp [processEntry, htitle, hprice, hmem, hspecs, hiter, hcs, Bind.bind, Except.bind]

/-- Replacing the matching element leaves nothing but the new value in the
filter by its name, provided names were distinct. -/
theorem filter_map_replace_self (c : Characteristic) :
    ∀ acc : List Characteristic, (acc.map Characteristic.name).Nodup →
      acc.any (fun a => a.name == c.name) = true →
      ((acc.map (fun a => if a.name == c.name then c else a)).filter
        (fun a => a.name == c.name)) = [c] := by
  intro acc
  induction acc with
  | nil => intro _ hp; simp at hp
  | cons a acc ih =>
    intro h hp
    rw [List.map_cons, List.nodup_cons] at h
    obtain ⟨h1, h2⟩ := h
    by_cases hb : a.name = c.name
    · rw [List.map_cons, if_pos (by simp [hb]), List.filter_cons, if_pos (by simp)]
      have hrest : ((acc.map (fun a => if a.name == c.name then c else a)).filter
          (fun a => a.name == c.name)) = [] := by
        rw [List.filter_eq_nil_iff]
        intro y hy
        obtain ⟨b, hbm, hfb⟩ := List.mem_map.mp hy
        have hbn : b.name ≠ c.name := by
          intro he
          exact h1 (List.mem_map.mpr ⟨b, hbm, by rw [he, hb]⟩)
        rw [if_neg (by simp [hbn])] at hfb
        subst hfb
        simp [hbn]
      rw [hrest]
    · rw [List.map_cons, if_neg (by simp [hb]), List.filter_cons, if_neg (by simp [hb])]
      have hp2 : acc.any (fun a => a.name == c.name) = true := by
        rcases List.any_eq_true.mp hp with ⟨x, hx, hnx⟩
        rcases List.mem_cons.mp hx with hxa | hxacc
        · subst hxa
          simp [hb] at hnx
        · exact List.any_eq_true.mpr ⟨x, hxacc, hnx⟩
      exact ih h2 hp2

/-- Replacing the matching element does not change the filter by any other
name. -/
theorem filter_map_replace_ne (c : Characteristic) (n : String) (hn : c.name ≠ n) :
    ∀ acc : List Characteristic,
      ((acc.map (fun a => if a.name == c.name then c else a)).filter
        (fun a => a.name == n)) = acc.filter (fun a => a.name == n) := by
  intro acc
  induction acc with
  | nil => rfl
  | cons a acc ih =>
    by_cases hb : a.name = c.name
    · rw [List.map_cons, if_pos (by simp [hb]), List.filter_cons, if_neg (by simp [hn]),
        List.filter_cons, if_neg (by simp [hb, hn])]
      exact ih
    · rw [List.map_cons, if_neg (by simp [hb]), List.filter_cons, List.filter_cons]
      by_cases ha : a.name = n
      · rw [if_pos (by simp [ha]), if_pos (by simp [ha]), ih]
      · rw [if_neg (by simp [ha]), if_neg (by simp [ha]), ih]

/-- Inserting a characteristic makes it the single element filtered by its
name. -/
theorem insertUpd_filter_self (acc : List Characteristic) (c : Characteristic)
    (h : (acc.map Characteristic.name).Nodup) :
    (insertUpd acc c).filter (fun a => a.name == c.name) = [c] := by
  unfold insertUpd
  cases hp : acc.any (fun a => a.name == c.name) with
  | true =>
    simp only [hp, if_true]
    exact filter_map_replace_self c acc h hp
  | false =>
    simp only [hp, Bool.false_eq_true, if_false]
    rw [List.filter_append]
    have hnil : acc.filter (fun a => a.name == c.name) = [] := by
      rw [List.filter_eq_nil_iff]
      intro y hy
      exact fun hc => (List.any_eq_false.mp hp y hy) hc
    rw [hnil, List.filter_cons, if_pos (by simp)]
    rfl

/-- Inserting a characteristic does not change the filter by another name. -/
theorem insertUpd_filter_ne (acc : List Characteristic) (c : Characteristic) (n : String)
    (hn : c.name ≠ n) :
    (insertUpd acc c).filter (fun a => a.name == n) = acc.filter (fun a => a.name == n) := by
  unfold insertUpd
  cases hp : acc.any (fun a => a.name == c.name) with
  | true =>
    simp only [hp, if_true]
    exact filter_map_replace_ne c n hn acc
  | false =>
    simp only [hp, Bool.false_eq_true, if_false]
    rw [List.filter_append, List.filter_cons, if_neg (by simp [hn])]
    simp

/-- The fold of insertion-updates keeps, for every name, exactly the last
inserted characteristic of that name (or what the accumulator held). -/
theorem foldl_insertUpd_filter (n : String) :
    ∀ (ts acc : List Characteristic), (acc.map Characteristic.name).Nodup →
      ((ts.foldl insertUpd acc).filter (fun c => c.name == n)) =
        match (ts.filter (fun c => c.name == n)).getLast? with
        | some c => [c]
        | none => acc.filter (fun c => c.name == n) := by
  intro ts
  induction ts with
  | nil => intro acc h; simp
  | cons c ts ih =>
    intro acc h
    rw [List.foldl_cons]
    rw [ih _ (insertUpd_nodup acc c h)]
    by_cases hc : c.name = n
    · rw [List.filter_cons, if_pos (by simp [hc])]
      cases hl : (ts.filter (fun a => a.name == n)).getLast? with
      | some d =>
        cases hfl : ts.filter (fun a => a.name == n) with
        | nil => rw [hfl] at hl; simp at hl
        | cons x xs =>
          rw [hfl] at hl
          rw [List.getLast?_cons_cons, hl]
      | none =>
        have hnil : ts.filter (fun a => a.name == n) = [] := List.getLast?_eq_none_iff.mp hl
        rw [hnil, List.getLast?_singleton]
        subst hc
        exact insertUpd_filter_self acc c h
    · rw [List.filter_cons, if_neg (by simp [hc])]
      rw [insertUpd_filter_ne acc c n hc]

/-- C8: specs from the structured payload accumulate across entries in
order with no deduplication, while the markup-fallback pairs are
deduplicated by label with the last occurrence winning. -/
theorem C8_specs_policies :
    (∀ (xs ys : List JValue) (a b : List Characteristic),
        specsFromList xs = .ok a → specsFromList ys = .ok b →
        specsFromList (xs ++ ys) = .ok (a ++ b)) ∧
    (∀ (st : ExtractState) (vfs : List (String × JValue)) (sv : JValue)
        (elems : List JValue) (cs : List Characteristic),
        jmem (.obj vfs) "title" = false → jmem (.obj vfs) "price" = false →
        jmem (.obj vfs) "specs" = true → jget (.obj vfs) "specs" = some sv →
        jiter sv = .ok elems → specsFromList elems = .ok cs →
        processEntry st (.obj vfs) = .ok ⟨st.title, st.price, st.specs ++ cs⟩) ∧
    (∀ (spans : List String) (n : String),
        (specsFallback spans).filter (fun c => c.name == n) =
          (((pairSpecs spans).filter (fun c => c.name == n)).getLast?).toList) := by
  refine ⟨specsFromList_append, processEntry_specs_append, ?_⟩
  intro spans n
  unfold specsFallback dedupLastWins
  rw [foldl_insertUpd_filter n (pairSpecs spans) [] (by simp)]
  cases hl : ((pairSpecs spans).filter (fun c => c.name == n)).getLast? <;> simp

/-- C8 witness: a specs-only entry with the repeated name A appends both
characteristics after the already accumulated ones. -/
theorem C8_witness :
    processEntry ⟨none, none, [⟨"X", "0"⟩]⟩
        (.obj [("specs", .arr [.obj [("name", .str "A"), ("value", .int 1)],
                               .obj [("name", .str "A"), ("value", .int 2)]])]) =
      .ok ⟨none, none, [⟨"X", "0"⟩, ⟨"A", "1"⟩, ⟨"A", "2"⟩]⟩ :=
  C8_specs_policies.2.1 ⟨none, none, [⟨"X", "0"⟩]⟩
    [("specs", .arr [.obj [("name", .str "A"), ("value", .int 1)],
                     .obj [("name", .str "A"), ("value", .int 2)]])]
    (.arr [.obj [("name", .str "A"), ("value", .int 1)],
           .obj [("name", .str "A"), ("value", .int 2)]])
    [.obj [("name", .str "A"), ("value", .int 1)],
     .obj [("name", .str "A"), ("value", .int 2)]]
    [⟨"A", "1"⟩, ⟨"A", "2"⟩] rfl rfl rfl rfl rfl rfl

end YMarket
